import Mathlib

/-!
Shallow embedding of `src/crawler.ts` (trademark-crawler).

Text handling mirrors the JavaScript string operations used by the crawler:
strings that undergo JS-style processing (`toLowerCase`, `trim`,
`replace(/\s+/g, ' ')`, `includes`) are modelled as `List Char`; opaque
identifiers (selectors, canonical field keys, CLI arguments) stay `String`.
-/

/-- JS `String.prototype.trim`: drop leading and trailing whitespace. -/
def trimWS (s : List Char) : List Char :=
  ((s.dropWhile Char.isWhitespace).reverse.dropWhile Char.isWhitespace).reverse

/-- JS `replace(/\s+/g, ' ')`: collapse every whitespace run to a single space.
The flag records whether the previous character was whitespace. -/
def collapseWS : Bool → List Char → List Char
  | _, [] => []
  | prevWS, c :: cs =>
    if c.isWhitespace then
      if prevWS then collapseWS true cs else ' ' :: collapseWS true cs
    else c :: collapseWS false cs

/-- The crawler's label/value normalization `.trim().replace(/\s+/g, ' ')`. -/
def normalizeText (s : List Char) : List Char := collapseWS false (trimWS s)

/-- JS `a.startsWith(b)` on char lists (needle first). -/
def startsWithList : List Char → List Char → Bool
  | [], _ => true
  | _ :: _, [] => false
  | a :: as, b :: bs => a == b && startsWithList as bs

/-- JS `haystack.includes(needle)`: substring containment. -/
def containsSub (needle : List Char) : List Char → Bool
  | [] => startsWithList needle []
  | c :: rest => startsWithList needle (c :: rest) || containsSub needle rest

/-! Selector constants from the `Selectors` const enum in `crawler.ts`. -/

namespace Selectors

def FormContainer : String := ".search-attr-container"

def DateFrom : String := "#attribute_date_from"

def DateTo : String := "#attribute_date_to"

def SubmitButton : String := ".ui-button-secondary .ui-clickable"

def CheckboxInput : String := "input[type=\"checkbox\"]"

def TableRowLink : String := "table tbody tr td a"

def PaginationNext : String := "a.ui-paginator-next:not(.ui-state-disabled)"

def ErrorMessage : String := ".tabs-info-message"

def DetailPanel : String := "section.panel"

end Selectors

/-- `TARGET_CHECKBOXES` from `crawler.ts`. -/
def TARGET_CHECKBOXES : List String :=
  ["pwp_criteria_0",
   "collections_criteria_advanced_7",
   "collections_criteria_advanced_7_child_attrs_0"]

/-- `FIELD_MAPPINGS` from `crawler.ts`, in object-literal insertion order:
label substring (as matched by `labelText.includes(label)`) to canonical key. -/
def FIELD_MAPPINGS : List (List Char × String) :=
  [("Name/Title".toList, "nameTitle"),
   ("Status".toList, "status"),
   ("Application date".toList, "applicationDate"),
   ("Revelation date".toList, "revelationDate"),
   ("Application number".toList, "applicationNumber"),
   ("Category of rights".toList, "categoryOfRights"),
   ("Registration number".toList, "registrationNumber"),
   ("Trademark type".toList, "trademarkType")]

/-! Outcome classification after form submission (`performSearch`, tail). -/

/-- An error thrown by the crawler; `retryable = false` models crawlee's
`NonRetryableError`. -/
structure CrawlError where
  message : String
  retryable : Bool
deriving DecidableEq, Repr

/-- Phrase checked first by `performSearch`. -/
def noResultsPhrase : List Char := "no results found".toList

/-- Phrase checked second by `performSearch`. -/
def tooManyPhrase : List Char := "too many results found".toList

/-- The informational-message normalization performed inside
`page.$eval(Selectors.ErrorMessage, el => el?.textContent?.toLowerCase().trim())`. -/
def normMsg (t : List Char) : List Char := trimWS (t.map Char.toLower)

/-- Tail of `performSearch` in `crawler.ts`: classify the informational message.
`none` models the `.catch(() => null)` case (message element absent);
`.ok ()` is the Success path (the function returns without throwing);
the two `.error` values model the two `NonRetryableError` throws. -/
def performSearchClassify (errorText : Option (List Char)) : Except CrawlError Unit :=
  match errorText with
  | none => .ok ()
  | some t =>
    let n := normMsg t
    if containsSub noResultsPhrase n then
      .error ⟨"No results found for the given criteria", false⟩
    else if containsSub tooManyPhrase n then
      .error ⟨"Too many results found. Please narrow your search criteria", false⟩
    else .ok ()

/-! Checkbox handling (`setCheckboxes` in `crawler.ts`). -/

/-- A checkbox element as observed by `setCheckboxes`: its `id` attribute
(`none` models a missing attribute, the `if (!id) continue` path) and its
current checked state. -/
structure CheckboxEl where
  id : Option String
  checked : Bool
deriving DecidableEq, Repr

/-- `setCheckboxes` from `crawler.ts`: walk the form's checkboxes in order;
skip elements without an id; click (toggle) exactly those whose current state
disagrees with membership in `TARGET_CHECKBOXES`. Returns the resulting form
state and the number of toggles performed. -/
def setCheckboxesRun : List CheckboxEl → List CheckboxEl × Nat
  | [] => ([], 0)
  | cb :: rest =>
    let r := setCheckboxesRun rest
    match cb.id with
    | none => (cb :: r.1, r.2)
    | some i =>
      if cb.checked = TARGET_CHECKBOXES.contains i then (cb :: r.1, r.2)
      else ({ id := cb.id, checked := !cb.checked } :: r.1, r.2 + 1)

/-! Page interaction traces. Each Playwright primitive the crawler invokes is
modelled as one abstract action; the trace of a routine is the list of actions
it performs in source order. Wait-style actions carry the timeout option the
source passes (`none` when the call site passes no timeout and the engine
default applies). -/

inductive PageAction where
  | waitForLoadState (state : String) (timeoutMs : Option Nat)
  | waitForSelector (sel : String) (timeoutMs : Option Nat)
  | waitForTimeout (ms : Nat)
  | waitForNavigation (timeoutMs : Option Nat)
  | waitForFunction (descr : String) (timeoutMs : Option Nat)
  | click (sel : String)
  | press (key : String)
  | typeText (sel : String) (value : String)
deriving DecidableEq, Repr

/-- Trace of the checkbox loop in `setCheckboxes`: elements without an id are
skipped; a disagreeing control is clicked and followed by `waitForTimeout(100)`. -/
def checkboxActions (form : List CheckboxEl) : List PageAction :=
  form.flatMap (fun cb =>
    match cb.id with
    | none => []
    | some i =>
      if cb.checked = TARGET_CHECKBOXES.contains i then []
      else [.click ".ui-chkbox-box", .waitForTimeout 100])

/-- Trace of `fillDateField(page, selector, value)` from `crawler.ts`. -/
def fillDateFieldActions (sel : String) (value : String) : List PageAction :=
  [.click sel, .press "Control+A", .press "Backspace",
   .typeText sel value, .waitForTimeout 300]

/-- Description tag for the post-submission `page.waitForFunction` that polls
for `.search-table` or `.tabs-info-message`. -/
def resultsOrMessageWait : String := "search-table or tabs-info-message"

/-- Trace of `performSearch(page, startDate, endDate)` from `crawler.ts`,
parametrized by the checkbox form state found on the page. Note the source
order: the from-field receives `endDate` and the to-field `startDate`. -/
def performSearchActions (form : List CheckboxEl)
    (startDate endDate : String) : List PageAction :=
  [.waitForLoadState "networkidle" none,
   .waitForSelector Selectors.FormContainer (some 20000)]
  ++ checkboxActions form
  ++ fillDateFieldActions Selectors.DateFrom endDate
  ++ fillDateFieldActions Selectors.DateTo startDate
  ++ [.waitForNavigation (some 15000),
      .click Selectors.SubmitButton,
      .waitForFunction resultsOrMessageWait none]

/-- Trace of the waits in the `detail` route handler. -/
def detailHandlerActions : List PageAction :=
  [.waitForLoadState "networkidle" (some 20000),
   .waitForSelector Selectors.DetailPanel (some 15000),
   .waitForTimeout 1000]

/-- Trace of one pagination advance: click the next control and settle. -/
def paginationAdvanceActions : List PageAction :=
  [.click Selectors.PaginationNext, .waitForTimeout 1500]

/-- `navigationTimeoutSecs` from the `PlaywrightCrawler` configuration. -/
def crawlerNavigationTimeoutSecs : Nat := 60

/-- `requestHandlerTimeoutSecs` from the `PlaywrightCrawler` configuration. -/
def crawlerRequestHandlerTimeoutSecs : Nat := 180

/-- An action that suspends the task (a wait of any kind). -/
def isSuspension : PageAction → Bool
  | .waitForLoadState _ _ => true
  | .waitForSelector _ _ => true
  | .waitForTimeout _ => true
  | .waitForNavigation _ => true
  | .waitForFunction _ _ => true
  | _ => false

/-- A suspension carries an explicit bound at its call site: a fixed delay is
its own bound; the other waits are bounded exactly when the source passes a
timeout option. -/
def hasExplicitBound : PageAction → Bool
  | .waitForLoadState _ t => t.isSome
  | .waitForSelector _ t => t.isSome
  | .waitForTimeout _ => true
  | .waitForNavigation t => t.isSome
  | .waitForFunction _ t => t.isSome
  | _ => false

/-! Argument validation (`validateArgs` in `crawler.ts`). -/

/-- Numeric value of one decimal digit character. -/
def digitVal (c : Char) : Nat := c.toNat - '0'.toNat

/-- Day count of a month, with the Gregorian leap-year rule. -/
def daysInMonth (y m : Nat) : Nat :=
  if m = 2 then
    if y % 4 = 0 && (y % 100 ≠ 0 || y % 400 = 0) then 29 else 28
  else if m = 4 || m = 6 || m = 9 || m = 11 then 30
  else 31

/-- Modelled from the spec: the date-validity check delegated by
`validateArgs` to `parse(dateStr, 'yyyy-MM-dd', new Date())` from the external
`date-fns` library (not part of this repository). The spec's contract for it
is a valid `YYYY-MM-DD` calendar date: four year digits, dash, two month
digits in 01..12, dash, two day digits within the month's length. -/
def isValidDateStr (s : String) : Bool :=
  match s.toList with
  | [y1, y2, y3, y4, s1, m1, m2, s2, d1, d2] =>
    y1.isDigit && y2.isDigit && y3.isDigit && y4.isDigit &&
    s1 == '-' && s2 == '-' &&
    m1.isDigit && m2.isDigit && d1.isDigit && d2.isDigit &&
    (let y := ((digitVal y1 * 10 + digitVal y2) * 10 + digitVal y3) * 10 + digitVal y4
     let m := digitVal m1 * 10 + digitVal m2
     let d := digitVal d1 * 10 + digitVal d2
     1 ≤ m && m ≤ 12 && 1 ≤ d && d ≤ daysInMonth y m)
  | _ => false

/-- The `(year, month, day)` triple read off a well-formed date string;
`(0, 0, 0)` for malformed input (never consulted there by `validateArgs`). -/
def parseDateTriple (s : String) : Nat × Nat × Nat :=
  match s.toList with
  | [y1, y2, y3, y4, _, m1, m2, _, d1, d2] =>
    (((digitVal y1 * 10 + digitVal y2) * 10 + digitVal y3) * 10 + digitVal y4,
     digitVal m1 * 10 + digitVal m2,
     digitVal d1 * 10 + digitVal d2)
  | _ => (0, 0, 0)

/-- The `parsedStart > parsedEnd` comparison of the two parsed `Date` objects:
lexicographic on the `(year, month, day)` triples. -/
def dateGt (a b : String) : Bool :=
  let x := parseDateTriple a
  let y := parseDateTriple b
  decide (y.1 < x.1 ∨ (y.1 = x.1 ∧ (y.2.1 < x.2.1 ∨ (y.2.1 = x.2.1 ∧ y.2.2 < x.2.2))))

/-- `validateArgs` from `crawler.ts` on the argv tail. A missing positional
argument is JS `undefined`, falsy like the empty string, so both are modelled
by `getD i ""`. Every `.error` branch models `console.error` followed by
`process.exit(1)`: a fatal usage error with no partial output. -/
def validateArgs (args : List String) : Except String (String × String) :=
  let startDate := args.getD 0 ""
  let endDate := args.getD 1 ""
  if startDate = "" || endDate = "" then
    .error "Usage: npm start <start_date:YYYY-MM-DD> <end_date:YYYY-MM-DD>"
  else if !isValidDateStr startDate || !isValidDateStr endDate then
    .error "Invalid date format. Use YYYY-MM-DD."
  else if dateGt startDate endDate then
    .error "Start date must be before or equal to end date."
  else .ok (startDate, endDate)

/-! Detail extraction (`extractDetailData` in `crawler.ts`). A rendered detail
row is a list of `td` cells; each cell records whether its class list contains
`detail-title`, its text content, and the text content of a `.highlight`
sub-element when one exists. -/

structure Cell where
  isDetailTitle : Bool
  text : List Char
  highlight : Option (List Char)
deriving DecidableEq, Repr

/-- The `Object.entries(fieldMappings).find(([label]) => labelText.includes(label))`
step: first mapping entry whose label occurs in the normalized label text. -/
def findMapping (labelText : List Char) : Option String :=
  (FIELD_MAPPINGS.find? (fun p => containsSub p.1 labelText)).map Prod.snd

/-- The value chosen for a matched row: the trimmed `.highlight` text when it
is non-empty, else the whole cell's normalized text; `none` models the
`value || null` assignment of `null` when the chosen text is empty. -/
def extractValue (valueCell : Cell) : Option (List Char) :=
  let hv : Option (List Char) :=
    match valueCell.highlight with
    | some h => if trimWS h = [] then none else some (trimWS h)
    | none => none
  let v : List Char :=
    match hv with
    | some h => h
    | none => normalizeText valueCell.text
  if v = [] then none else some v

/-- The `for (let i = 0; i < cells.length; i += 2)` pairing of a row's cells:
the cell at each even index is a candidate label, the following cell its
value; a lone trailing cell is skipped (`valueCell` is undefined), as is any
even-indexed cell without the `detail-title` class or whose normalized text
matches no mapping entry. Produces the `result[fieldName] = ...` assignments
of the row in order. -/
def cellPairs : List Cell → List (String × Option (List Char))
  | lc :: vc :: rest =>
    (match (if lc.isDetailTitle then findMapping (normalizeText lc.text) else none) with
     | some k => [(k, extractValue vc)]
     | none => []) ++ cellPairs rest
  | _ => []

/-- All `result[fieldName] = ...` assignments of a detail page, in row order. -/
def allAssignments (rows : List (List Cell)) : List (String × Option (List Char)) :=
  rows.flatMap cellPairs

/-- Does the JS object (as an insertion-ordered association list) have key `k`? -/
def objHasKey : List (String × Option (List Char)) → String → Bool
  | [], _ => false
  | p :: rest, k => if p.1 = k then true else objHasKey rest k

/-- Overwrite every entry with key `k` (a built object has at most one). -/
def objReplace : List (String × Option (List Char)) → String → Option (List Char) →
    List (String × Option (List Char))
  | [], _, _ => []
  | p :: rest, k, v =>
    (if p.1 = k then (k, v) else p) :: objReplace rest k v

/-- JS object assignment `result[k] = v`: overwrite in place when the key
exists, else append the new key at the end. -/
def objSet (m : List (String × Option (List Char))) (k : String)
    (v : Option (List Char)) : List (String × Option (List Char)) :=
  if objHasKey m k then objReplace m k v else m ++ [(k, v)]

/-- `extractDetailData` from `crawler.ts`: play the assignments of every row,
in order, into an initially empty object. -/
def extractDetailData (rows : List (List Cell)) : List (String × Option (List Char)) :=
  (allAssignments rows).foldl (fun m a => objSet m a.1 a.2) []

/-- Read a key off the extracted object: `none` means the key is absent,
`some none` that it is present with value `null`. -/
def recordLookup : List (String × Option (List Char)) → String →
    Option (Option (List Char))
  | [], _ => none
  | p :: rest, k => if p.1 = k then some p.2 else recordLookup rest k

/-- The last assignment to `k` in an assignment list, if any (later
assignments shadow earlier ones, as in the JS object). -/
def lastAssign : List (String × Option (List Char)) → String →
    Option (Option (List Char))
  | [], _ => none
  | p :: rest, k =>
    match lastAssign rest k with
    | some r => some r
    | none => if p.1 = k then some p.2 else none

/-! Pagination (`do ... while (hasNextPage)` loop of the default handler). -/

/-- One rendered result page: the detail links its table rows expose, and
whether an enabled next-page control (`Selectors.PaginationNext`) is present. -/
structure ResultPage where
  rows : List String
  nextEnabled : Bool
deriving DecidableEq, Repr

/-- A well-formed page sequence: every page before the last exposes an enabled
next control, and the last page does not. -/
def wellFormedSeq : ResultPage → List ResultPage → Bool
  | p, [] => !p.nextEnabled
  | p, q :: qs => p.nextEnabled && wellFormedSeq q qs

/-- The pagination loop of the default handler, on the current page and the
pages a next-click would reach: enqueue the current page's row links, then
advance while the enabled next control is present. Returns the links emitted
(in order) and the number of loop iterations. -/
def paginationWalk : ResultPage → List ResultPage → List String × Nat
  | p, rest =>
    if p.nextEnabled then
      match rest with
      | [] => (p.rows, 1)
      | q :: qs =>
        let r := paginationWalk q qs
        (p.rows ++ r.1, r.2 + 1)
    else (p.rows, 1)

/-! The `formFilled` guard of the default handler. -/

/-- One invocation of the default handler, reduced to the guard logic:
`g` is the closure-captured `formFilled` flag, `isSearchUrl` whether
`request.url.includes('/search/advanced-search')`, and `searchOk` whether
`performSearch` returns without throwing. Yields the new flag and whether the
form-fill-and-submit step was entered. The flag becomes `true` only after a
successful `performSearch` and is never assigned `false`. -/
def listingStep (g : Bool) (isSearchUrl : Bool) (searchOk : Bool) : Bool × Bool :=
  if isSearchUrl && !g then
    (if searchOk then true else g, true)
  else (g, false)

/-- A whole sequence of default-handler invocations (for example scheduler
retries), starting from guard state `g`: final guard state and how many
invocations entered the form-fill-and-submit step. -/
def runListing (g : Bool) : List (Bool × Bool) → Bool × Nat
  | [] => (g, 0)
  | (u, s) :: rest =>
    let st := listingStep g u s
    let r := runListing st.1 rest
    (r.1, (if st.2 then 1 else 0) + r.2)

/-! Concrete fixtures used by counterexamples and witnesses. -/

/-- A detail row whose label contains both the mapping labels `Status` and
`Application date`; the mapping's first-match rule resolves it to `status`. -/
def c3Row : List Cell :=
  [⟨true, "Status of Application date".toList, none⟩, ⟨false, "X".toList, none⟩]

/-- A one-row detail page built from `c3Row`. -/
def c3Rows : List (List Cell) := [c3Row]

/-- A detail page whose single matched value is empty after normalization. -/
def c3wRows : List (List Cell) :=
  [[⟨true, " Name/Title ".toList, none⟩, ⟨false, "  ".toList, some "  ".toList⟩]]

/-- A detail row assigning value `A` to the `status` key. -/
def c7RowA : List Cell := [⟨true, "Status".toList, none⟩, ⟨false, "A".toList, none⟩]

/-- A detail row assigning value `B` to the `status` key. -/
def c7RowB : List Cell := [⟨true, "Status".toList, none⟩, ⟨false, "B".toList, none⟩]

/-- A detail row assigning a value to the `nameTitle` key. -/
def c7RowNT : List Cell := [⟨true, "Name/Title".toList, none⟩, ⟨false, "N".toList, none⟩]

/-- A small checkbox form: one target checkbox unchecked, one foreign checkbox
checked, one element without an id. -/
def c5Form : List CheckboxEl :=
  [⟨some "pwp_criteria_0", false⟩, ⟨some "x", true⟩, ⟨none, true⟩]

/-! Helper lemmas about `setCheckboxesRun` and the checkbox trace. -/

theorem setCheckboxesRun_mem_correct (form : List CheckboxEl) :
    ∀ cb ∈ (setCheckboxesRun form).1, ∀ i, cb.id = some i →
      cb.checked = TARGET_CHECKBOXES.contains i := by
  induction form with
  | nil => intro cb h; simp [setCheckboxesRun] at h
  | cons hd tl ih =>
    intro cb hmem i hid
    rcases hhd : hd.id with _ | j
    · simp only [setCheckboxesRun, hhd, List.mem_cons] at hmem
      rcases hmem with h | h
      · subst h; rw [hid] at hhd; cases hhd
      · exact ih cb h i hid
    · by_cases hc : hd.checked = TARGET_CHECKBOXES.contains j
      · simp only [setCheckboxesRun, hhd, if_pos hc, List.mem_cons] at hmem
        rcases hmem with h | h
        · subst h; rw [hid] at hhd; injection hhd with hji; subst hji; exact hc
        · exact ih cb h i hid
      · simp only [setCheckboxesRun, hhd, if_neg hc, List.mem_cons] at hmem
        rcases hmem with h | h
        · subst h
          simp only at hid ⊢
          injection hid with hji
          subst hji
          cases hb : hd.checked <;> simp_all
        · exact ih cb h i hid

theorem setCheckboxesRun_fixed (form : List CheckboxEl)
    (h : ∀ cb ∈ form, ∀ i, cb.id = some i →
      cb.checked = TARGET_CHECKBOXES.contains i) :
    setCheckboxesRun form = (form, 0) := by
  induction form with
  | nil => rfl
  | cons hd tl ih =>
    have htl : setCheckboxesRun tl = (tl, 0) :=
      ih (fun cb hcb i hid => h cb (List.mem_cons_of_mem hd hcb) i hid)
    rcases hhd : hd.id with _ | j
    · simp [setCheckboxesRun, hhd, htl]
    · have hc : hd.checked = TARGET_CHECKBOXES.contains j :=
        h hd (List.mem_cons_self hd tl) j hhd
      simp [setCheckboxesRun, hhd, htl, hc]

theorem checkboxActions_elem (form : List CheckboxEl) :
    ∀ b ∈ checkboxActions form,
      b = PageAction.click ".ui-chkbox-box" ∨ b = PageAction.waitForTimeout 100 := by
  intro b hb
  rw [checkboxActions, List.mem_flatMap] at hb
  rcases hb with ⟨cb, _, hmem⟩
  rcases hid : cb.id with _ | i <;> rw [hid] at hmem <;> dsimp only at hmem
  · simp at hmem
  · by_cases hc : cb.checked = TARGET_CHECKBOXES.contains i
    · rw [if_pos hc] at hmem
      simp at hmem
    · rw [if_neg hc] at hmem
      simp only [List.mem_cons, List.not_mem_nil, or_false] at hmem
      rcases hmem with h | h
      · exact Or.inl h
      · exact Or.inr h

/-! Helper lemmas about the JS-object model of the extracted record. -/

theorem recordLookup_append (m l : List (String × Option (List Char))) (k : String) :
    recordLookup (m ++ l) k =
      match recordLookup m k with
      | some r => some r
      | none => recordLookup l k := by
  induction m with
  | nil => simp [recordLookup]
  | cons p rest ih =>
    by_cases h : p.1 = k <;> simp [recordLookup, h, ih]

theorem recordLookup_of_not_hasKey (m : List (String × Option (List Char)))
    (k : String) (h : objHasKey m k = false) : recordLookup m k = none := by
  induction m with
  | nil => rfl
  | cons p rest ih =>
    by_cases hp : p.1 = k
    · simp [objHasKey, hp] at h
    · simp only [objHasKey, if_neg hp] at h
      simp [recordLookup, hp, ih h]

theorem recordLookup_objReplace_ne (m : List (String × Option (List Char)))
    (a k : String) (v : Option (List Char)) (h : a ≠ k) :
    recordLookup (objReplace m a v) k = recordLookup m k := by
  induction m with
  | nil => rfl
  | cons p rest ih =>
    by_cases hp : p.1 = a
    · have hpk : p.1 ≠ k := by rw [hp]; exact h
      simp [objReplace, hp, recordLookup, h, hpk, ih]
    · simp [objReplace, hp, recordLookup, ih]

theorem recordLookup_objReplace_self (m : List (String × Option (List Char)))
    (k : String) (v : Option (List Char)) (h : objHasKey m k = true) :
    recordLookup (objReplace m k v) k = some v := by
  induction m with
  | nil => cases h
  | cons p rest ih =>
    by_cases hp : p.1 = k
    · simp [objReplace, hp, recordLookup]
    · simp only [objHasKey, if_neg hp] at h
      simp [objReplace, hp, recordLookup, ih h]

theorem recordLookup_objSet (m : List (String × Option (List Char)))
    (a k : String) (v : Option (List Char)) :
    recordLookup (objSet m a v) k = if a = k then some v else recordLookup m k := by
  by_cases hk : objHasKey m a = true
  · rw [objSet, if_pos hk]
    by_cases he : a = k
    · subst he
      rw [if_pos rfl, recordLookup_objReplace_self m a v hk]
    · rw [if_neg he, recordLookup_objReplace_ne m a k v he]
  · rw [objSet, if_neg hk, recordLookup_append]
    by_cases he : a = k
    · subst he
      rw [recordLookup_of_not_hasKey m a (Bool.not_eq_true _ ▸ hk)]
      simp [recordLookup]
    · cases hr : recordLookup m k <;> simp [recordLookup, he, hr]

theorem recordLookup_foldl (asgs : List (String × Option (List Char)))
    (m : List (String × Option (List Char))) (k : String) :
    recordLookup (asgs.foldl (fun m a => objSet m a.1 a.2) m) k =
      match lastAssign asgs k with
      | some r => some r
      | none => recordLookup m k := by
  induction asgs generalizing m with
  | nil => simp [lastAssign]
  | cons a rest ih =>
    simp only [List.foldl_cons, lastAssign]
    rw [ih]
    cases hl : lastAssign rest k with
    | some r => simp
    | none =>
      simp only
      rw [recordLookup_objSet]
      by_cases he : a.1 = k <;> simp [he]

/-- The extracted record, read at any key, is the last assignment to that
key performed by the rows in order. -/
theorem recordLookup_extract (rows : List (List Cell)) (k : String) :
    recordLookup (extractDetailData rows) k = lastAssign (allAssignments rows) k := by
  rw [extractDetailData, recordLookup_foldl]
  cases h : lastAssign (allAssignments rows) k <;> simp [recordLookup]

theorem lastAssign_isSome_iff (asgs : List (String × Option (List Char)))
    (k : String) :
    (lastAssign asgs k).isSome = true ↔ k ∈ asgs.map Prod.fst := by
  induction asgs with
  | nil => simp [lastAssign]
  | cons a rest ih =>
    simp only [lastAssign, List.map_cons, List.mem_cons]
    cases hl : lastAssign rest k with
    | some r =>
      simp only [Option.isSome_some, true_iff]
      right
      exact ih.mp (by rw [hl]; rfl)
    | none =>
      rw [hl] at ih
      by_cases he : a.1 = k
      · simp [he]
      · simp only [if_neg he, Option.isSome_none, Bool.false_eq_true, false_iff]
        intro hcon
        rcases hcon with h | h
        · exact he h.symm
        · have hko := ih.mpr h
          simp at hko

theorem lastAssign_perm {asgs₁ asgs₂ : List (String × Option (List Char))}
    (hp : List.Perm asgs₁ asgs₂) :
    (asgs₁.map Prod.fst).Nodup → ∀ k, lastAssign asgs₁ k = lastAssign asgs₂ k := by
  induction hp with
  | nil => intro _ k; rfl
  | cons x h ih =>
    intro hnd k
    rw [List.map_cons, List.nodup_cons] at hnd
    simp only [lastAssign, ih hnd.2 k]
  | swap x y l =>
    intro hnd k
    rw [List.map_cons, List.map_cons, List.nodup_cons] at hnd
    have hxy : y.1 ≠ x.1 := fun he => hnd.1 (by rw [he]; exact List.mem_cons_self _ _)
    simp only [lastAssign]
    cases hl : lastAssign l k with
    | some r => rfl
    | none =>
      by_cases hx : x.1 = k <;> by_cases hy : y.1 = k
      · exact absurd (hy.trans hx.symm) hxy
      · simp [hx, hy]
      · simp [hx, hy]
      · simp [hx, hy]
  | trans h₁ h₂ ih₁ ih₂ =>
    intro hnd k
    have hnd₂ := (List.Perm.nodup_iff (h₁.map Prod.fst)).mp hnd
    exact (ih₁ hnd k).trans (ih₂ hnd₂ k)

/-! Claim theorems. -/

/-- C1: after form submission, outcome classification of the informational
message (lowercased and trimmed) is total, mutually exclusive and
first-match: a text containing the no-results phrase yields the non-retryable
empty-result failure; otherwise a text containing the too-many phrase yields
the non-retryable overflow failure; otherwise the search is a success; a
contrived text containing both phrases takes the no-results branch. -/
theorem claim_C1_classification (t : List Char) :
    (containsSub noResultsPhrase (normMsg t) = true →
      performSearchClassify (some t) =
        .error ⟨"No results found for the given criteria", false⟩) ∧
    (containsSub noResultsPhrase (normMsg t) = false →
      containsSub tooManyPhrase (normMsg t) = true →
      performSearchClassify (some t) =
        .error ⟨"Too many results found. Please narrow your search criteria", false⟩) ∧
    (containsSub noResultsPhrase (normMsg t) = false →
      containsSub tooManyPhrase (normMsg t) = false →
      performSearchClassify (some t) = .ok ()) ∧
    performSearchClassify (some ("no results found too many results found".toList)) =
      .error ⟨"No results found for the given criteria", false⟩ := by
  refine ⟨fun h => by simp [performSearchClassify, h],
          fun h1 h2 => by simp [performSearchClassify, h1, h2],
          fun h1 h2 => by simp [performSearchClassify, h1, h2],
          by rfl⟩

/-- Witness for C1: a concrete mixed-case, padded message lands in the
empty-result branch. -/
theorem claim_C1_classification_witness :
    performSearchClassify (some "  NO Results Found today ".toList) =
      .error ⟨"No results found for the given criteria", false⟩ :=
  (claim_C1_classification "  NO Results Found today ".toList).1 (by decide)

/-- C2: for every form state and `SearchCriteria`, the trace of
`performSearch` types the caller's end date into the registry's from-field and
the caller's start date into the to-field, and performs no other typing: the
registry's semantic inversion is preserved exactly. -/
theorem claim_C2_date_inversion (form : List CheckboxEl) (startDate endDate : String) :
    PageAction.typeText Selectors.DateFrom endDate ∈
      performSearchActions form startDate endDate ∧
    PageAction.typeText Selectors.DateTo startDate ∈
      performSearchActions form startDate endDate ∧
    (∀ sel v, PageAction.typeText sel v ∈ performSearchActions form startDate endDate →
      (sel = Selectors.DateFrom ∧ v = endDate) ∨
      (sel = Selectors.DateTo ∧ v = startDate)) := by
  refine ⟨?_, ?_, ?_⟩
  · simp [performSearchActions, fillDateFieldActions]
  · simp [performSearchActions, fillDateFieldActions]
  · intro sel v h
    simp only [performSearchActions, List.mem_append] at h
    rcases h with ((((h | h) | h) | h) | h)
    · simp at h
    · rcases checkboxActions_elem form _ h with h | h <;> cases h
    · simp [fillDateFieldActions] at h
      rcases h with ⟨hs, hv⟩
      exact Or.inl ⟨hs, hv⟩
    · simp [fillDateFieldActions] at h
      rcases h with ⟨hs, hv⟩
      exact Or.inr ⟨hs, hv⟩
    · simp at h

/-- Witness for C2 at concrete dates: the from-field receives the end date,
and the trace's only from-field typing is that one. -/
theorem claim_C2_date_inversion_witness :
    PageAction.typeText Selectors.DateFrom "2024-01-31" ∈
      performSearchActions [] "2024-01-01" "2024-01-31" ∧
    ((Selectors.DateFrom = Selectors.DateFrom ∧ "2024-01-31" = "2024-01-31") ∨
     (Selectors.DateFrom = Selectors.DateTo ∧ "2024-01-31" = "2024-01-01")) :=
  ⟨(claim_C2_date_inversion [] "2024-01-01" "2024-01-31").1,
   (claim_C2_date_inversion [] "2024-01-01" "2024-01-31").2.2 _ _
     (claim_C2_date_inversion [] "2024-01-01" "2024-01-31").1⟩

/-- Counterexample to C3 as stated: on a one-row page whose label-styled cell
reads `Status of Application date` — whose normalized text contains the
mapping label of the canonical key `applicationDate` — the extracted record
does not contain `applicationDate`, because the earlier mapping entry
`Status` wins the first-match search. -/
theorem claim_C3_counterexample :
    (("Application date".toList, "applicationDate") ∈ FIELD_MAPPINGS) ∧
    ((c3Rows.flatMap id).filter (fun c => c.isDetailTitle)).any
      (fun c => containsSub "Application date".toList (normalizeText c.text)) = true ∧
    recordLookup (extractDetailData c3Rows) "applicationDate" = none := by
  refine ⟨by decide, by decide, by decide⟩

/-- C3 (amended): a canonical key is present in the extracted record exactly
when some row yields an assignment for it — a cell at an even position with
the label styling, followed by a value cell, whose normalized text resolves
to that key as the first matching mapping entry; a present key whose last
chosen value text is empty after normalization maps to explicit null; rows
producing no assignment contribute nothing. -/
theorem claim_C3_amended (rows : List (List Cell)) (k : String) :
    ((recordLookup (extractDetailData rows) k).isSome = true ↔
      ∃ row ∈ rows, k ∈ (cellPairs row).map Prod.fst) ∧
    (lastAssign (allAssignments rows) k = some none →
      recordLookup (extractDetailData rows) k = some none) ∧
    (∀ r, cellPairs r = [] →
      recordLookup (extractDetailData (rows ++ [r])) k =
        recordLookup (extractDetailData rows) k) := by
  refine ⟨?_, ?_, ?_⟩
  · rw [recordLookup_extract, lastAssign_isSome_iff, allAssignments]
    simp [List.mem_flatMap]
    constructor
    · rintro ⟨x, row, hrow, hpa⟩
      exact ⟨row, hrow, x, hpa⟩
    · rintro ⟨row, hrow, x, hpa⟩
      exact ⟨x, row, hrow, hpa⟩
  · intro h
    rw [recordLookup_extract, h]
  · intro r hr
    rw [recordLookup_extract, recordLookup_extract, allAssignments, allAssignments,
      List.flatMap_append]
    simp [hr]

/-- Witness for C3 (amended) on a concrete page: the matched `Name/Title`
value is empty after trimming, so the key is present as explicit null, and
appending an assignment-free row changes nothing. -/
theorem claim_C3_amended_witness :
    ((recordLookup (extractDetailData c3wRows) "nameTitle").isSome = true ↔
      ∃ row ∈ c3wRows, "nameTitle" ∈ (cellPairs row).map Prod.fst) ∧
    recordLookup (extractDetailData c3wRows) "nameTitle" = some none ∧
    recordLookup (extractDetailData (c3wRows ++ [[]])) "nameTitle" =
      recordLookup (extractDetailData c3wRows) "nameTitle" :=
  ⟨(claim_C3_amended c3wRows "nameTitle").1,
   (claim_C3_amended c3wRows "nameTitle").2.1 (by decide),
   (claim_C3_amended c3wRows "nameTitle").2.2 [] (by decide)⟩

/-- C4: on any finite page sequence whose pages before the last expose an
enabled next control and whose last page does not, the pagination loop
performs exactly one iteration per page and emits each page's detail links
exactly once, in page order — no page missed, none repeated. -/
theorem claim_C4_pagination (p : ResultPage) (rest : List ResultPage)
    (h : wellFormedSeq p rest = true) :
    paginationWalk p rest =
      (((p :: rest).map ResultPage.rows).flatten, (p :: rest).length) := by
  induction rest generalizing p with
  | nil =>
    rw [wellFormedSeq, Bool.not_eq_true'] at h
    simp [paginationWalk, h]
  | cons q qs ih =>
    rw [wellFormedSeq, Bool.and_eq_true] at h
    simp [paginationWalk, h.1, ih q h.2]

/-- Witness for C4 on a concrete 2-page sequence with rows `[a, b]` and `[c]`. -/
theorem claim_C4_pagination_witness :
    paginationWalk ⟨["a", "b"], true⟩ [⟨["c"], false⟩] = (["a", "b", "c"], 2) := by
  rw [claim_C4_pagination ⟨["a", "b"], true⟩ [⟨["c"], false⟩] (by decide)]
  decide

/-- C5: one run of the checkbox-state function leaves every identified
checkbox in the desired state (checked exactly when its id is a target), and
a second run on the resulting form performs zero toggles and changes
nothing — toggling an already-correct control never happens. -/
theorem claim_C5_checkbox_idempotent (form : List CheckboxEl) :
    (∀ cb ∈ (setCheckboxesRun form).1, ∀ i, cb.id = some i →
      cb.checked = TARGET_CHECKBOXES.contains i) ∧
    setCheckboxesRun (setCheckboxesRun form).1 = ((setCheckboxesRun form).1, 0) :=
  ⟨setCheckboxesRun_mem_correct form,
   setCheckboxesRun_fixed (setCheckboxesRun form).1 (setCheckboxesRun_mem_correct form)⟩

/-- Witness for C5 on a concrete form: the target checkbox ends checked, and
the second application is the identity with zero toggles. -/
theorem claim_C5_checkbox_idempotent_witness :
    (({ id := some "pwp_criteria_0", checked := true } : CheckboxEl)).checked =
      TARGET_CHECKBOXES.contains "pwp_criteria_0" ∧
    setCheckboxesRun (setCheckboxesRun c5Form).1 = ((setCheckboxesRun c5Form).1, 0) :=
  ⟨(claim_C5_checkbox_idempotent c5Form).1
      { id := some "pwp_criteria_0", checked := true } (by decide)
      "pwp_criteria_0" rfl,
   (claim_C5_checkbox_idempotent c5Form).2⟩

/-- C6: when a value cell carries a highlighted sub-element whose trimmed text
is present (non-empty) and differs from the cell's normalized raw text, the
stored value is the highlighted text verbatim (trimmed), never the raw cell
text. -/
theorem claim_C6_highlight_preferred (vc : Cell) (hv : List Char)
    (hh : vc.highlight.map trimWS = some hv) (hne : hv ≠ [])
    (hdiff : normalizeText vc.text ≠ hv) :
    extractValue vc = some hv ∧ extractValue vc ≠ some (normalizeText vc.text) := by
  rcases hvs : vc.highlight with _ | h0
  · rw [hvs] at hh; cases hh
  · rw [hvs] at hh
    simp only [Option.map_some'] at hh
    injection hh with hh
    constructor
    · simp [extractValue, hvs, hh, hne]
    · simp [extractValue, hvs, hh, hne]
      exact fun hcon => hdiff hcon.symm

/-- Witness for C6 on a concrete cell with highlight `  HIGH  ` and raw text
` raw text `. -/
theorem claim_C6_highlight_preferred_witness :
    extractValue ⟨false, " raw text ".toList, some "  HIGH  ".toList⟩ =
      some "HIGH".toList ∧
    extractValue ⟨false, " raw text ".toList, some "  HIGH  ".toList⟩ ≠
      some (normalizeText " raw text ".toList) :=
  claim_C6_highlight_preferred ⟨false, " raw text ".toList, some "  HIGH  ".toList⟩
    "HIGH".toList (by decide) (by decide) (by decide)

/-- Counterexample to C7 as stated: two rows whose labels each match exactly
one mapping entry both assign the `status` key; swapping them changes the
extracted record, so extraction is not a pure function of the set of
label/value pairs even outside the first-match exception. -/
theorem claim_C7_counterexample :
    List.Perm [c7RowA, c7RowB] [c7RowB, c7RowA] ∧
    FIELD_MAPPINGS.countP (fun p => containsSub p.1 (normalizeText "Status".toList)) = 1 ∧
    recordLookup (extractDetailData [c7RowA, c7RowB]) "status" = some (some "B".toList) ∧
    recordLookup (extractDetailData [c7RowB, c7RowA]) "status" = some (some "A".toList) :=
  ⟨List.Perm.swap c7RowB c7RowA [], by decide, by decide, by decide⟩

/-- C7 (amended): extraction is invariant under any permutation of the rows
provided no canonical key is assigned by two different label/value pairs;
when the same key is assigned twice with different values, the last row in
document order wins, so permuting such rows can change the record. -/
theorem claim_C7_amended (rows₁ rows₂ : List (List Cell))
    (hperm : List.Perm rows₁ rows₂)
    (hnd : ((allAssignments rows₁).map Prod.fst).Nodup) (k : String) :
    recordLookup (extractDetailData rows₁) k =
      recordLookup (extractDetailData rows₂) k := by
  rw [recordLookup_extract, recordLookup_extract]
  exact lastAssign_perm (hperm.flatMap_right cellPairs) hnd k

/-- Witness for C7 (amended): two rows assigning distinct keys may be swapped
without changing the record. -/
theorem claim_C7_amended_witness :
    recordLookup (extractDetailData [c7RowA, c7RowNT]) "status" =
      recordLookup (extractDetailData [c7RowNT, c7RowA]) "status" :=
  claim_C7_amended [c7RowA, c7RowNT] [c7RowNT, c7RowA]
    (List.Perm.swap c7RowNT c7RowA []) (by decide) "status"

/-- C8: the form is submitted at most once per process run: once the
`formFilled` guard is true it stays true and every subsequent invocation of
the listing handler skips the form-fill-and-submit step, over any sequence of
retries; the guard becomes true on a successful fill of the search page. -/
theorem claim_C8_form_guard (inputs : List (Bool × Bool)) (u s : Bool) :
    listingStep false true true = (true, true) ∧
    listingStep true u s = (true, false) ∧
    runListing true inputs = (true, 0) := by
  refine ⟨rfl, by simp [listingStep], ?_⟩
  induction inputs with
  | nil => rfl
  | cons a rest ih =>
    rcases a with ⟨u', s'⟩
    simp [runListing, listingStep, ih]

/-- C9: argument validation is a trichotomy: two valid `YYYY-MM-DD` calendar
dates with start not after end are returned as given; a valid pair with start
after end is a fatal usage error; a missing argument or a pair containing an
invalid date string is a fatal usage error, with no partial output. -/
theorem claim_C9_validate_trichotomy (a b : String) :
    (isValidDateStr a = true → isValidDateStr b = true → dateGt a b = false →
      validateArgs [a, b] = .ok (a, b)) ∧
    (isValidDateStr a = true → isValidDateStr b = true → dateGt a b = true →
      (validateArgs [a, b]).isOk = false) ∧
    ((isValidDateStr a = false ∨ isValidDateStr b = false) →
      (validateArgs [a, b]).isOk = false) ∧
    (validateArgs []).isOk = false ∧
    (validateArgs [a]).isOk = false := by
  have hne : ∀ s : String, isValidDateStr s = true → ¬s = "" := by
    intro s hs he
    rw [he] at hs
    exact absurd hs (by decide)
  refine ⟨?_, ?_, ?_, by decide, ?_⟩
  · intro h1 h2 h3
    simp [validateArgs, List.getD, Except.isOk, Except.toBool, hne a h1, hne b h2, h1, h2, h3]
  · intro h1 h2 h3
    simp [validateArgs, List.getD, Except.isOk, Except.toBool, hne a h1, hne b h2, h1, h2, h3]
  · intro h
    by_cases hae : a = ""
    · simp [validateArgs, List.getD, Except.isOk, Except.toBool, hae]
    · by_cases hbe : b = ""
      · simp [validateArgs, List.getD, Except.isOk, Except.toBool, hae, hbe]
      · rcases h with h | h <;> simp [validateArgs, List.getD, Except.isOk, Except.toBool, hae, hbe, h]
  · by_cases hae : a = "" <;> simp [validateArgs, List.getD, Except.isOk, Except.toBool, hae]

/-- Witness for C9 at concrete arguments: an ordered valid pair is accepted,
a reversed pair and a malformed month are usage errors. -/
theorem claim_C9_validate_trichotomy_witness :
    validateArgs ["2024-01-01", "2024-01-31"] = .ok ("2024-01-01", "2024-01-31") ∧
    (validateArgs ["2024-01-31", "2024-01-01"]).isOk = false ∧
    (validateArgs ["2024-13-01", "2024-01-01"]).isOk = false :=
  ⟨(claim_C9_validate_trichotomy "2024-01-01" "2024-01-31").1
      (by decide) (by decide) (by decide),
   (claim_C9_validate_trichotomy "2024-01-31" "2024-01-01").2.1
      (by decide) (by decide) (by decide),
   (claim_C9_validate_trichotomy "2024-13-01" "2024-01-01").2.2.1
      (Or.inl (by decide))⟩

/-- Counterexample to C10 as stated: the post-submission concurrent wait for
a results table or an informational message (`page.waitForFunction`) is a
suspension point in the `performSearch` trace that carries no explicit
timeout at its call site — it is bounded only by the engine's default and the
handler-level timeout, not by an explicit per-wait bound. -/
theorem claim_C10_counterexample :
    PageAction.waitForFunction resultsOrMessageWait none ∈
      performSearchActions [] "2024-01-01" "2024-01-31" ∧
    isSuspension (PageAction.waitForFunction resultsOrMessageWait none) = true ∧
    hasExplicitBound (PageAction.waitForFunction resultsOrMessageWait none) = false :=
  ⟨by decide, rfl, rfl⟩

/-- C10 (amended): every suspension point in the crawler's traces carries an
explicit call-site bound — form wait 20s, submit navigation 15s, detail load
20s, detail panel 15s, settle delays 100/300/1000/1500 ms — except exactly
two: the initial networkidle load wait and the post-submission
results-or-message poll, which rely on the engine's default timeout (and on
the crawler's explicit 180 s request-handler timeout). -/
theorem claim_C10_amended (form : List CheckboxEl) (startDate endDate : String)
    (act : PageAction)
    (h : act ∈ performSearchActions form startDate endDate ++
          detailHandlerActions ++ paginationAdvanceActions)
    (hs : isSuspension act = true) :
    hasExplicitBound act = true ∨
      act = .waitForLoadState "networkidle" none ∨
      act = .waitForFunction resultsOrMessageWait none := by
  rw [List.mem_append, List.mem_append] at h
  rcases h with (hp | hd) | hpg
  · rw [performSearchActions] at hp
    rw [List.mem_append, List.mem_append, List.mem_append, List.mem_append] at hp
    rcases hp with ((((h1 | h2) | h3) | h4) | h5)
    · simp only [List.mem_cons, List.not_mem_nil, or_false] at h1
      rcases h1 with h | h
      · subst h; right; left; rfl
      · subst h; left; rfl
    · rcases checkboxActions_elem form _ h2 with h | h
      · subst h; simp [isSuspension] at hs
      · subst h; left; rfl
    · simp only [fillDateFieldActions, List.mem_cons, List.not_mem_nil, or_false] at h3
      rcases h3 with h | h | h | h | h <;> subst h <;>
        first
          | (left; rfl)
          | simp [isSuspension] at hs
    · simp only [fillDateFieldActions, List.mem_cons, List.not_mem_nil, or_false] at h4
      rcases h4 with h | h | h | h | h <;> subst h <;>
        first
          | (left; rfl)
          | simp [isSuspension] at hs
    · simp only [List.mem_cons, List.not_mem_nil, or_false] at h5
      rcases h5 with h | h | h
      · subst h; left; rfl
      · subst h; simp [isSuspension] at hs
      · subst h; right; right; rfl
  · simp only [detailHandlerActions, List.mem_cons, List.not_mem_nil, or_false] at hd
    rcases hd with h | h | h <;> subst h <;> left <;> rfl
  · simp only [paginationAdvanceActions, List.mem_cons, List.not_mem_nil, or_false] at hpg
    rcases hpg with h | h
    · subst h; simp [isSuspension] at hs
    · subst h; left; rfl

/-- Witness for C10 (amended): the form-container wait, a member of the
trace, carries its explicit 20 s bound. -/
theorem claim_C10_amended_witness :
    hasExplicitBound (PageAction.waitForSelector Selectors.FormContainer (some 20000)) = true ∨
      PageAction.waitForSelector Selectors.FormContainer (some 20000) =
        PageAction.waitForLoadState "networkidle" none ∨
      PageAction.waitForSelector Selectors.FormContainer (some 20000) =
        PageAction.waitForFunction resultsOrMessageWait none :=
  claim_C10_amended [] "2024-01-01" "2024-01-31"
    (PageAction.waitForSelector Selectors.FormContainer (some 20000)) (by decide) rfl
